import Mathlib

/-!
# appd-stash: the SLA aggregation of `slaVault.go`

A shallow embedding of the aggregation pipeline of `slaVault.go`
(`SLA.CalcSLA`, the setters, `Metrics.isEmpty`, `fixJSONFormat`,
`getJSONData`, the decoding and the loops of `getSLA`, and the two pump
cycles), followed by the properties proved about it.

Conventions of the embedding:
* Go `int` / `int64` values are `Int`, with `int` taken 64 bits wide; the
  one integer addition of the source (`totalErrors + totalStalls` in
  `CalcSLA`) wraps at 64 bits.
* Go strings are `String`; `strings.Split(s, "|")` splits on the character
  `|`, which for UTF-8 text is the same as splitting on its byte, and
  `strings.Compare(a, b) == 0` is equality.
* `float64` operations are read as exact arithmetic over `ℚ`.
* `map[int64]SLA` is a lookup function `Int → Option SLA`.
* an index out of range (a Go run-time panic) is `none`.
-/

namespace SlaVault

/-! # Definitions -/

/-! ## Data model -/

/-- BT metric name for the call counter (`const calls`). -/
def calls : String := "Calls per Minute"
/-- BT metric name for the error counter (`const errors`). -/
def errors : String := "Errors per Minute"
/-- BT metric name for the stall counter (`const stalls`). -/
def stalls : String := "Stall Count"
/-- BT metric name for the very-slow counter (`const veryslow`). -/
def veryslow : String := "Number of Very Slow Calls"

/-- The `SLA` struct. -/
@[ext]
structure SLA where
  startTime : Int
  frequency : String
  availability : ℚ
  performance : ℚ
  totalCalls : Int
  totalErrors : Int
  totalStalls : Int
  totalVerySlow : Int
deriving DecidableEq

/-- Two's-complement wrap of a mathematical integer into the range of a
64-bit Go `int`. -/
def wrapInt (x : Int) : Int := (x + 2 ^ 63) % 2 ^ 64 - 2 ^ 63

/-- `SLA.CalcSLA`: sets availability and performance when `0 < totalCalls`. -/
def SLA.CalcSLA (s : SLA) : SLA :=
  if 0 < s.totalCalls then
    let a : ℚ := 100 * ((wrapInt (s.totalErrors + s.totalStalls) : Int) : ℚ) / (s.totalCalls : ℚ)
    let p : ℚ := 100 * ((s.totalVerySlow : ℚ) / (s.totalCalls : ℚ))
    { s with availability := 100 - a, performance := 100 + p }
  else s

/-- `SLA.setCalls`. -/
def SLA.setCalls (s : SLA) (v : Int) : SLA := { s with totalCalls := v }
/-- `SLA.setErrors`. -/
def SLA.setErrors (s : SLA) (v : Int) : SLA := { s with totalErrors := v }
/-- `SLA.setStalls`. -/
def SLA.setStalls (s : SLA) (v : Int) : SLA := { s with totalStalls := v }
/-- `SLA.setVerySlow`. -/
def SLA.setVerySlow (s : SLA) (v : Int) : SLA := { s with totalVerySlow := v }

/-- The decoded fields of `MetricValues` (the others are tagged `json:"-"`
and never read by the aggregation). -/
structure MetricValues where
  StartTimeInMillis : Int
  Sum : Int
deriving DecidableEq

/-- The fields of `Metrics` read by the aggregation. -/
structure Metrics where
  MetricName : String
  MetricPath : String
  Frequency : String
  Values : List MetricValues
deriving DecidableEq

/-- The sentinel `noData` of `isEmpty`. -/
def noData : String := "METRIC DATA NOT FOUND"

/-- `Metrics.isEmpty`: the name is the sentinel, or there are no values. -/
def Metrics.isEmpty (md : Metrics) : Bool :=
  if md.MetricName = noData then true
  else if md.Values.length = 0 then true
  else false

/-! ## Strings -/

/-- Go `strings.Split(s, sep)` for a one-character separator, on the
characters of the string: the pieces between consecutive separators. -/
def splitChars (sep : Char) : List Char → List (List Char)
  | [] => [[]]
  | c :: cs =>
    if c = sep then [] :: splitChars sep cs
    else
      match splitChars sep cs with
      | [] => [[c]]
      | seg :: rest => (c :: seg) :: rest

/-- `strings.Split(s, "|")`. -/
def stringsSplit (s : String) : List String :=
  (splitChars '|' s.data).map String.mk

/-! ## The map `map[int64]SLA` -/

/-- A Go `map[int64]SLA`, as its lookup function. -/
abbrev SLAMap := Int → Option SLA

/-- The map returned by `make(map[int64]SLA)`. -/
def emptyMap : SLAMap := fun _ => none

/-- The assignment `m[k] = v`. -/
def mapSet (m : SLAMap) (k : Int) (v : SLA) : SLAMap :=
  fun k' => if k' = k then some v else m k'

/-- The zero value of `SLA`, returned by a lookup of a missing key. -/
def zeroSLA : SLA := ⟨0, "", 0, 0, 0, 0, 0, 0⟩

/-! ## The loops of `getSLA` -/

/-- The selector `sw` computed from the last path segment `s[m]`. -/
def switchOf (seg : String) : Nat :=
  if calls = seg then 1
  else if errors = seg then 2
  else if stalls = seg then 3
  else if veryslow = seg then 4
  else 0

/-- The statement `switch sw`: the setter selected by `sw`, none for `sw = 0`. -/
def switchSet (sw : Nat) (sla : SLA) (v : Int) : SLA :=
  match sw with
  | 1 => sla.setCalls v
  | 2 => sla.setErrors v
  | 3 => sla.setStalls v
  | 4 => sla.setVerySlow v
  | _ => sla

/-- The body of the loop over `j`: one sample of one series. -/
def valueStep (freq : String) (sw : Nat) (mSeries : SLAMap) (v : MetricValues) : SLAMap :=
  let m1 : SLAMap :=
    if (mSeries v.StartTimeInMillis).isSome = false then
      mapSet mSeries v.StartTimeInMillis ⟨v.StartTimeInMillis, freq, 100, 100, 0, 0, 0, 0⟩
    else mSeries
  let sla : SLA := (m1 v.StartTimeInMillis).getD zeroSLA
  mapSet m1 v.StartTimeInMillis (switchSet sw sla v.Sum)

/-- The body of the loop over `i`: one series. `none` is the run-time
panic of the index expression `s[m]` when `m = len(s) - 1` is out of range. -/
def seriesStep (mSeries : SLAMap) (md : Metrics) : Option SLAMap :=
  if md.isEmpty = true then some mSeries
  else
    let s := stringsSplit md.MetricPath
    let m : Int := (s.length : Int) - 1
    if m < 0 then none
    else
      match s.get? m.toNat with
      | none => none
      | some seg => some (md.Values.foldl (valueStep md.Frequency (switchOf seg)) mSeries)

/-- The loop over `i`: all series, in order. -/
def innerLoop (metrics : List Metrics) (mSeries : SLAMap) : Option SLAMap :=
  metrics.foldlM seriesStep mSeries

/-- The body of the loop over `bt`: a series without values is passed over,
any other triggers the whole loop over `i`. -/
def btStep (metrics : List Metrics) (mSeries : SLAMap) (bt : Metrics) : Option SLAMap :=
  if bt.Values.length = 0 then some mSeries else innerLoop metrics mSeries

/-- The loop over `bt`. -/
def outerLoop (metrics : List Metrics) : Option SLAMap :=
  metrics.foldlM (btStep metrics) emptyMap

/-- The final loop `for k := range mSeries`: `CalcSLA` on every record. -/
def calcAll (mSeries : SLAMap) : SLAMap := fun k => (mSeries k).map SLA.CalcSLA

/-- The aggregation of `getSLA`, from the decoded series `metrics.BTmetrics`
(what `json.Unmarshal` leaves in `metrics` after the fetch) to the returned
map: the loops over `bt`, `i`, `j`, then `CalcSLA` on every record. -/
def getSLA (metrics : List Metrics) : Option SLAMap :=
  (outerLoop metrics).map calcAll

/-- Lookup in the result of `getSLA`: the record at key `k`, if the
aggregation returns and has one. -/
def getSLA_at (metrics : List Metrics) (k : Int) : Option SLA :=
  (getSLA metrics).bind (fun m => m k)

/-! ## The decoding `json.Unmarshal(fixedValue, &metrics)` -/

/-- One object of the JSON array the controller answers with, by the keys the
struct tags of `Metrics` and `MetricValues` refer to, and `metricName`. -/
structure RawMetric where
  metricName : String
  metricPath : String
  frequency : String
  metricValues : List MetricValues
deriving DecidableEq

/-- What `json.Unmarshal` leaves in one `Metrics`: `MetricPath`, `Frequency`
and `Values` are filled from their keys; `MetricName` is tagged `json:"-"`,
so the decoder never writes it and it keeps the zero value `""`. -/
def unmarshalMetric (raw : RawMetric) : Metrics :=
  ⟨"", raw.metricPath, raw.frequency, raw.metricValues⟩

/-- What `json.Unmarshal` leaves in `metrics.BTmetrics` for a well-formed body. -/
def jsonUnmarshal (body : List RawMetric) : List Metrics := body.map unmarshalMetric

/-! ## The loops as one list of events -/

/-- The counter kind of a series: the selector of the last segment of its path. -/
def kindOf (path : String) : Nat := switchOf ((stringsSplit path).getLast?.getD "")

/-- One sample together with the frequency label and selector of its series. -/
abbrev Event := String × Nat × MetricValues

/-- The samples a run of the loop over `i` processes, in order. -/
def events (metrics : List Metrics) : List Event :=
  (metrics.map (fun md =>
    if md.isEmpty = true then []
    else md.Values.map (fun v => (md.Frequency, kindOf md.MetricPath, v)))).flatten

/-- The loop body on an event. -/
def evStep (m : SLAMap) (e : Event) : SLAMap := valueStep e.1 e.2.1 m e.2.2

/-- The number of runs of the loop over `i`: the series with at least one value. -/
def runs (metrics : List Metrics) : Nat :=
  (metrics.filter (fun bt => decide (bt.Values.length ≠ 0))).length

/-- One run of the loop over `i`, as a total function. -/
def pass (metrics : List Metrics) (m : SLAMap) : SLAMap := (events metrics).foldl evStep m

/-! ## One key of the map -/

/-- The record created by the loop body for a sample of a series. -/
def freshSLA (e : Event) : SLA := ⟨e.2.2.StartTimeInMillis, e.1, 100, 100, 0, 0, 0, 0⟩

/-- The loop body on a record that exists. -/
def recStep (r : SLA) (e : Event) : SLA := switchSet e.2.1 r e.2.2.Sum

/-- The loop body seen from the key of its sample. -/
def slotStep (o : Option SLA) (e : Event) : Option SLA :=
  some (recStep (o.getD (freshSLA e)) e)

/-- The events whose sample is at timestamp `k`. -/
def eventsAt (k : Int) (es : List Event) : List Event :=
  es.filter (fun e => decide (e.2.2.StartTimeInMillis = k))

/-- The sum of the last event of kind `K`, if there is one. -/
def lastSum (K : Nat) (es : List Event) : Option Int :=
  ((es.filter (fun e => decide (e.2.1 = K))).map (fun e => e.2.2.Sum)).getLast?

/-! ## Reading the result -/

/-- The sums of the samples at timestamp `T` of the series of kind `K` that
are not discarded, in input order: series order, then sample order within a
series. -/
def samplesOf (K : Nat) (T : Int) (metrics : List Metrics) : List Int :=
  ((metrics.filter (fun md => !md.isEmpty && decide (kindOf md.MetricPath = K))).map
    (fun md => (md.Values.filter (fun v => decide (v.StartTimeInMillis = T))).map
      (fun v => v.Sum))).flatten

/-- The counter of a record selected by `sw`. -/
def counter (sw : Nat) (r : SLA) : Int :=
  match sw with
  | 1 => r.totalCalls
  | 2 => r.totalErrors
  | 3 => r.totalStalls
  | 4 => r.totalVerySlow
  | _ => 0

/-- A single pass over the series in input order that skips the series for
which `isEmpty` holds: each remaining series is classified by its last path
segment and its samples are folded into the map, starting from the empty map. -/
def singlePass (metrics : List Metrics) : SLAMap :=
  (metrics.filter (fun md => !md.isEmpty)).foldl
    (fun m md => md.Values.foldl (valueStep md.Frequency (kindOf md.MetricPath)) m) emptyMap

/-! ## The fetch: `fixJSONFormat` and `getJSONData` -/

/-- The outcome of `http.DefaultClient.Do(req)`: a transport error, or a
response with its status code and the body `ioutil.ReadAll` reads from it. -/
inductive HTTPResult where
  | transportError : HTTPResult
  | response (statusCode : Int) (body : List UInt8) : HTTPResult

/-- The bytes of an ASCII string literal. -/
def asciiBytes (s : String) : List UInt8 := s.data.map (fun c => c.toNat.toUInt8)

/-- `fixJSONFormat`: prepend the header, append the closing brace. -/
def fixJSONFormat (toFix : List UInt8) : List UInt8 :=
  let fix := asciiBytes "\x7b \"metrics\": " ++ toFix
  fix ++ asciiBytes "\x7d"

/-- `getJSONData`, as a function of the outcome of the HTTP call. -/
def getJSONData (res : HTTPResult) : List UInt8 :=
  match res with
  | HTTPResult.transportError => []
  | HTTPResult.response statusCode body =>
    let bodyBytes : List UInt8 := if statusCode = 200 then body else []
    fixJSONFormat bodyBytes

/-! ## The two cadences: `influx1mPump`, `influx1hPump`, `pump` -/

/-- The observable actions of a cycle: `time.Sleep`, the fetch of `getSLA`
(`getJSONData` with its lookback and rollup arguments), and the calls of
`influxSaveData` and `influxSaveTimings`. -/
inductive Action where
  | sleep (millis : Nat) : Action
  | fetch (ds : Nat) (minutes : Nat) (rolledUp : Bool) : Action
  | writeSLA (ds : Nat) : Action
  | writeTiming (ds : Nat) : Action
deriving DecidableEq

/-- The actions performed so far, oldest first. -/
abbrev Trace := List Action

/-- Whether an action is a fetch. -/
def Action.isFetch : Action → Bool
  | Action.fetch _ _ _ => true
  | _ => false

/-- `influx1mPump`: the cycle function of the short period. The returned
function takes its own `ds`; every statement appends its action. -/
def influx1mPump (_ds : Nat) : Nat → Trace → Trace :=
  let thinkTime := 1000 * 60
  fun ds tr =>
    let tr := tr ++ [Action.sleep thinkTime]
    let tr := tr ++ [Action.fetch ds 5 false]
    let tr := tr ++ [Action.writeSLA ds]
    let tr := tr ++ [Action.writeTiming ds]
    tr

/-- `influx1hPump`: the cycle function of the long period. -/
def influx1hPump (_ds : Nat) : Nat → Trace → Trace :=
  let thinkTime := 1000 * 60 * 60
  fun ds tr =>
    let tr := tr ++ [Action.fetch ds 240 false]
    let tr := tr ++ [Action.writeSLA ds]
    let tr := tr ++ [Action.writeTiming ds]
    let tr := tr ++ [Action.sleep thinkTime]
    tr

/-- The first `n` iterations of the loop `pump` of `influxDataPump`, which
calls `dataFunc(ds)` for ever. -/
def pump (dataFunc : Nat → Trace → Trace) (ds : Nat) : Nat → Trace → Trace
  | 0, tr => tr
  | n + 1, tr => pump dataFunc ds n (dataFunc ds tr)

/-- The actions of a trace before its first fetch. -/
def beforeFirstFetch (tr : Trace) : List Action := tr.takeWhile (fun a => !a.isFetch)

/-! ## Concrete payloads -/

/-- Payload: error and stall sums of `2^62` each and one call, at timestamp 1. -/
def overflowPayload : List Metrics :=
  [⟨"", "A|Errors per Minute", "ONE_MIN", [⟨1, 2 ^ 62⟩]⟩,
   ⟨"", "A|Stall Count", "ONE_MIN", [⟨1, 2 ^ 62⟩]⟩,
   ⟨"", "A|Calls per Minute", "ONE_MIN", [⟨1, 1⟩]⟩]

/-- Payload: 100 calls and 5 errors at timestamp 1. -/
def callsErrorsPayload : List Metrics :=
  [⟨"", "A|Calls per Minute", "ONE_MIN", [⟨1, 100⟩]⟩,
   ⟨"", "A|Errors per Minute", "ONE_MIN", [⟨1, 5⟩]⟩]

/-- Payload: no calls, 5 errors, 2 stalls and 3 very slow calls at timestamp 1. -/
def idlePayload : List Metrics :=
  [⟨"", "A|Calls per Minute", "ONE_MIN", [⟨1, 0⟩]⟩,
   ⟨"", "A|Errors per Minute", "ONE_MIN", [⟨1, 5⟩]⟩,
   ⟨"", "A|Stall Count", "ONE_MIN", [⟨1, 2⟩]⟩,
   ⟨"", "A|Number of Very Slow Calls", "ONE_MIN", [⟨1, 3⟩]⟩]

/-- Body: one series named "METRIC DATA NOT FOUND" that carries a recognized
path and the sample `(1, 9)`. -/
def sentinelBody : List RawMetric :=
  [⟨"METRIC DATA NOT FOUND", "A|Calls per Minute", "ONE_MIN", [⟨1, 9⟩]⟩]

/-- Payload: one series with an unrecognized label and the sample `(1, 7)`. -/
def unrecognizedPayload : List Metrics :=
  [⟨"", "A|Average Response Time (ms)", "ONE_MIN", [⟨1, 7⟩]⟩]

/-- Payload: one call series with two samples at timestamp 1. -/
def duplicatePayload : List Metrics :=
  [⟨"", "A|Calls per Minute", "ONE_MIN", [⟨1, 3⟩, ⟨1, 4⟩]⟩]

/-! # Theorems -/

/-! ## Total form of the loops -/

theorem splitChars_ne_nil (sep : Char) (l : List Char) : splitChars sep l ≠ [] := by
  induction l with
  | nil => simp [splitChars]
  | cons c cs ih =>
    unfold splitChars
    split
    · simp
    · split <;> simp

theorem stringsSplit_ne_nil (s : String) : stringsSplit s ≠ [] := by
  simp [stringsSplit, splitChars_ne_nil]

theorem seriesStep_eq (m : SLAMap) (md : Metrics) :
    seriesStep m md = some (if md.isEmpty = true then m
      else md.Values.foldl (valueStep md.Frequency (kindOf md.MetricPath)) m) := by
  unfold seriesStep
  by_cases h : md.isEmpty = true
  · simp [h]
  · simp only [h, if_false]
    have hne := stringsSplit_ne_nil md.MetricPath
    have hlen : 0 < (stringsSplit md.MetricPath).length := List.length_pos.mpr hne
    have h1 : ¬ ((stringsSplit md.MetricPath).length : Int) - 1 < 0 := by omega
    have h2 : (((stringsSplit md.MetricPath).length : Int) - 1).toNat
        = (stringsSplit md.MetricPath).length - 1 := by omega
    simp only [h1, if_false, h2, kindOf, List.get?_eq_getElem?]
    rw [← List.getLast?_eq_getElem?]
    cases hs : (stringsSplit md.MetricPath).getLast? with
    | none => exact absurd (List.getLast?_eq_none_iff.mp hs) hne
    | some seg => simp

theorem innerLoop_eq (metrics : List Metrics) (m : SLAMap) :
    innerLoop metrics m = some ((events metrics).foldl evStep m) := by
  unfold innerLoop
  induction metrics generalizing m with
  | nil => simp [events]
  | cons md rest ih =>
    rw [List.foldlM_cons, seriesStep_eq]
    simp only [Option.some_bind, Option.bind_eq_bind]
    rw [ih]
    by_cases h : md.isEmpty = true
    · simp [events, h]
    · simp [events, h, List.foldl_append, List.foldl_map, evStep]

theorem outerLoop_aux (metrics l : List Metrics) (m : SLAMap) :
    l.foldlM (btStep metrics) m = some ((pass metrics)^[runs l] m) := by
  induction l generalizing m with
  | nil => simp [runs]
  | cons bt rest ih =>
    rw [List.foldlM_cons]
    by_cases h : bt.Values.length = 0
    · have hv : bt.Values = [] := List.length_eq_zero.mp h
      have hs : btStep metrics m bt = some m := by simp [btStep, h]
      rw [hs]
      simp only [Option.some_bind, Option.bind_eq_bind]
      rw [ih]
      simp [runs, hv]
    · have hv : bt.Values ≠ [] := fun hv => h (by simp [hv])
      have hs : btStep metrics m bt = some (pass metrics m) := by
        simp [btStep, h, innerLoop_eq, pass]
      rw [hs]
      simp only [Option.some_bind, Option.bind_eq_bind]
      rw [ih]
      simp [runs, hv]

theorem outerLoop_eq (metrics : List Metrics) :
    outerLoop metrics = some ((pass metrics)^[runs metrics] emptyMap) :=
  outerLoop_aux metrics metrics emptyMap

/-! ## One key of the map -/

theorem valueStep_at (freq : String) (sw : Nat) (m : SLAMap) (v : MetricValues) (k : Int) :
    valueStep freq sw m v k
      = if k = v.StartTimeInMillis then slotStep (m k) (freq, sw, v) else m k := by
  unfold valueStep slotStep recStep freshSLA
  by_cases hk : k = v.StartTimeInMillis
  · subst hk
    cases hm : m v.StartTimeInMillis <;> simp [mapSet, hm]
  · cases hm : m v.StartTimeInMillis <;> simp [mapSet, hm, hk]

theorem foldl_evStep_at (es : List Event) (m : SLAMap) (k : Int) :
    (es.foldl evStep m) k = (eventsAt k es).foldl slotStep (m k) := by
  induction es generalizing m with
  | nil => simp [eventsAt]
  | cons e rest ih =>
    rw [List.foldl_cons, ih]
    by_cases hk : e.2.2.StartTimeInMillis = k
    · subst hk
      simp [eventsAt, evStep, valueStep_at]
    · have hk2 : ¬ k = e.2.2.StartTimeInMillis := fun h => hk h.symm
      simp [eventsAt, hk, evStep, valueStep_at, hk2]

theorem foldl_slotStep_some (es : List Event) (r : SLA) :
    es.foldl slotStep (some r) = some (es.foldl recStep r) := by
  induction es generalizing r with
  | nil => rfl
  | cons e rest ih => simp [List.foldl_cons, slotStep, ih]

theorem foldl_slotStep_cons (e : Event) (es : List Event) (o : Option SLA) :
    (e :: es).foldl slotStep o = some ((e :: es).foldl recStep (o.getD (freshSLA e))) := by
  simp [List.foldl_cons, slotStep, foldl_slotStep_some]

/-! ## The fields of a record after a run -/

theorem recStep_fixed (r : SLA) (e : Event) :
    (recStep r e).startTime = r.startTime ∧ (recStep r e).frequency = r.frequency ∧
    (recStep r e).availability = r.availability ∧ (recStep r e).performance = r.performance := by
  unfold recStep switchSet
  split <;> simp [SLA.setCalls, SLA.setErrors, SLA.setStalls, SLA.setVerySlow]

theorem foldl_recStep_fixed (es : List Event) (r : SLA) :
    (es.foldl recStep r).startTime = r.startTime ∧
    (es.foldl recStep r).frequency = r.frequency ∧
    (es.foldl recStep r).availability = r.availability ∧
    (es.foldl recStep r).performance = r.performance := by
  induction es generalizing r with
  | nil => simp
  | cons e rest ih =>
    obtain ⟨h1, h2, h3, h4⟩ := ih (recStep r e)
    obtain ⟨g1, g2, g3, g4⟩ := recStep_fixed r e
    simp only [List.foldl_cons]
    exact ⟨h1.trans g1, h2.trans g2, h3.trans g3, h4.trans g4⟩

theorem lastSum_nil (K : Nat) : lastSum K [] = none := rfl

theorem lastSum_snoc (K : Nat) (es : List Event) (e : Event) :
    lastSum K (es ++ [e]) = if e.2.1 = K then some e.2.2.Sum else lastSum K es := by
  unfold lastSum
  by_cases h : e.2.1 = K
  · simp [List.filter_append, h, List.getLast?_append]
  · simp [List.filter_append, h]

theorem recStep_totalCalls (r : SLA) (e : Event) :
    (recStep r e).totalCalls = if e.2.1 = 1 then e.2.2.Sum else r.totalCalls := by
  unfold recStep switchSet
  split <;> simp_all [SLA.setCalls, SLA.setErrors, SLA.setStalls, SLA.setVerySlow]

theorem recStep_totalErrors (r : SLA) (e : Event) :
    (recStep r e).totalErrors = if e.2.1 = 2 then e.2.2.Sum else r.totalErrors := by
  unfold recStep switchSet
  split <;> simp_all [SLA.setCalls, SLA.setErrors, SLA.setStalls, SLA.setVerySlow]

theorem recStep_totalStalls (r : SLA) (e : Event) :
    (recStep r e).totalStalls = if e.2.1 = 3 then e.2.2.Sum else r.totalStalls := by
  unfold recStep switchSet
  split <;> simp_all [SLA.setCalls, SLA.setErrors, SLA.setStalls, SLA.setVerySlow]

theorem recStep_totalVerySlow (r : SLA) (e : Event) :
    (recStep r e).totalVerySlow = if e.2.1 = 4 then e.2.2.Sum else r.totalVerySlow := by
  unfold recStep switchSet
  split <;> simp_all [SLA.setCalls, SLA.setErrors, SLA.setStalls, SLA.setVerySlow]

theorem foldl_recStep_totalCalls (es : List Event) (r : SLA) :
    (es.foldl recStep r).totalCalls = (lastSum 1 es).getD r.totalCalls := by
  induction es using List.reverseRecOn with
  | nil => simp [lastSum_nil]
  | append_singleton l e ih =>
    rw [List.foldl_append, List.foldl_cons, List.foldl_nil, recStep_totalCalls, lastSum_snoc, ih]
    split <;> simp

theorem foldl_recStep_totalErrors (es : List Event) (r : SLA) :
    (es.foldl recStep r).totalErrors = (lastSum 2 es).getD r.totalErrors := by
  induction es using List.reverseRecOn with
  | nil => simp [lastSum_nil]
  | append_singleton l e ih =>
    rw [List.foldl_append, List.foldl_cons, List.foldl_nil, recStep_totalErrors, lastSum_snoc, ih]
    split <;> simp

theorem foldl_recStep_totalStalls (es : List Event) (r : SLA) :
    (es.foldl recStep r).totalStalls = (lastSum 3 es).getD r.totalStalls := by
  induction es using List.reverseRecOn with
  | nil => simp [lastSum_nil]
  | append_singleton l e ih =>
    rw [List.foldl_append, List.foldl_cons, List.foldl_nil, recStep_totalStalls, lastSum_snoc, ih]
    split <;> simp

theorem foldl_recStep_totalVerySlow (es : List Event) (r : SLA) :
    (es.foldl recStep r).totalVerySlow = (lastSum 4 es).getD r.totalVerySlow := by
  induction es using List.reverseRecOn with
  | nil => simp [lastSum_nil]
  | append_singleton l e ih =>
    rw [List.foldl_append, List.foldl_cons, List.foldl_nil, recStep_totalVerySlow, lastSum_snoc, ih]
    split <;> simp

/-! ## Repeating the run -/

theorem foldl_recStep_idem (es : List Event) (r : SLA) :
    es.foldl recStep (es.foldl recStep r) = es.foldl recStep r := by
  obtain ⟨h1, h2, h3, h4⟩ := foldl_recStep_fixed es (es.foldl recStep r)
  apply SLA.ext
  · exact h1
  · exact h2
  · exact h3
  · exact h4
  · rw [foldl_recStep_totalCalls, foldl_recStep_totalCalls]
    cases lastSum 1 es <;> simp
  · rw [foldl_recStep_totalErrors, foldl_recStep_totalErrors]
    cases lastSum 2 es <;> simp
  · rw [foldl_recStep_totalStalls, foldl_recStep_totalStalls]
    cases lastSum 3 es <;> simp
  · rw [foldl_recStep_totalVerySlow, foldl_recStep_totalVerySlow]
    cases lastSum 4 es <;> simp

theorem foldl_slotStep_idem (es : List Event) (o : Option SLA) :
    es.foldl slotStep (es.foldl slotStep o) = es.foldl slotStep o := by
  cases es with
  | nil => rfl
  | cons e rest =>
    rw [foldl_slotStep_cons e rest o, foldl_slotStep_some, foldl_recStep_idem]

theorem pass_idem (metrics : List Metrics) (m : SLAMap) :
    pass metrics (pass metrics m) = pass metrics m := by
  funext k
  unfold pass
  rw [foldl_evStep_at, foldl_evStep_at, foldl_slotStep_idem]

theorem pass_iterate_succ (metrics : List Metrics) (m : SLAMap) (n : Nat) :
    (pass metrics)^[n + 1] m = pass metrics m := by
  induction n with
  | zero => rfl
  | succ n ih => rw [Function.iterate_succ_apply', ih, pass_idem]

theorem events_eq_nil_of_runs (metrics : List Metrics) (h : runs metrics = 0) :
    events metrics = [] := by
  unfold runs at h
  have hnil := List.length_eq_zero.mp h
  rw [List.filter_eq_nil_iff] at hnil
  unfold events
  rw [List.flatten_eq_nil_iff]
  intro l hl
  obtain ⟨md, hmd, rfl⟩ := List.mem_map.mp hl
  have hv : md.Values = [] := by
    have := hnil md hmd
    simpa using this
  simp [hv]

theorem outerLoop_eq_pass (metrics : List Metrics) :
    outerLoop metrics = some (pass metrics emptyMap) := by
  rw [outerLoop_eq]
  cases hn : runs metrics with
  | zero => simp [pass, events_eq_nil_of_runs metrics hn]
  | succ n => rw [pass_iterate_succ]

theorem getSLA_eq (metrics : List Metrics) :
    getSLA metrics = some (calcAll (pass metrics emptyMap)) := by
  simp [getSLA, outerLoop_eq_pass]

theorem getSLA_at_eq (metrics : List Metrics) (k : Int) :
    getSLA_at metrics k
      = ((eventsAt k (events metrics)).foldl slotStep none).map SLA.CalcSLA := by
  simp [getSLA_at, getSLA_eq, calcAll, pass, foldl_evStep_at, emptyMap]

/-! ## Records of the returned map -/

theorem CalcSLA_counters (s : SLA) :
    s.CalcSLA.startTime = s.startTime ∧ s.CalcSLA.frequency = s.frequency ∧
    s.CalcSLA.totalCalls = s.totalCalls ∧ s.CalcSLA.totalErrors = s.totalErrors ∧
    s.CalcSLA.totalStalls = s.totalStalls ∧ s.CalcSLA.totalVerySlow = s.totalVerySlow := by
  unfold SLA.CalcSLA
  split <;> simp

theorem getSLA_lookup (metrics : List Metrics) (m : SLAMap) (k : Int)
    (hm : getSLA metrics = some m) :
    m k = ((eventsAt k (events metrics)).foldl slotStep none).map SLA.CalcSLA := by
  rw [getSLA_eq] at hm
  have hm2 := Option.some.inj hm
  rw [← hm2]
  simp [calcAll, pass, foldl_evStep_at, emptyMap]

/-- Every record of the returned map is `CalcSLA` of the record the loops
built from the events at its key, starting from the record created at the
first of them. -/
theorem record_origin (metrics : List Metrics) (m : SLAMap) (k : Int) (r : SLA)
    (hm : getSLA metrics = some m) (hr : m k = some r) :
    ∃ e rest, eventsAt k (events metrics) = e :: rest ∧
      r = ((e :: rest).foldl recStep (freshSLA e)).CalcSLA := by
  rw [getSLA_lookup metrics m k hm] at hr
  cases hes : eventsAt k (events metrics) with
  | nil => simp [hes] at hr
  | cons e rest =>
    refine ⟨e, rest, rfl, ?_⟩
    rw [hes, foldl_slotStep_cons] at hr
    simpa using hr.symm

theorem record_lookup (metrics : List Metrics) (m : SLAMap) (k : Int) (e : Event)
    (rest : List Event) (hm : getSLA metrics = some m)
    (hes : eventsAt k (events metrics) = e :: rest) :
    m k = some ((e :: rest).foldl recStep (freshSLA e)).CalcSLA := by
  rw [getSLA_lookup metrics m k hm, hes, foldl_slotStep_cons]
  simp

/-- The built record, before `CalcSLA`, still has the creation defaults in
its two scores. -/
theorem built_scores (e : Event) (es : List Event) :
    (es.foldl recStep (freshSLA e)).availability = 100 ∧
    (es.foldl recStep (freshSLA e)).performance = 100 := by
  obtain ⟨_, _, h3, h4⟩ := foldl_recStep_fixed es (freshSLA e)
  exact ⟨h3, h4⟩

theorem wrapInt_of_range (x : Int) (h1 : -(2 ^ 63) ≤ x) (h2 : x < 2 ^ 63) : wrapInt x = x := by
  unfold wrapInt
  rw [Int.emod_eq_of_lt (by omega) (by omega)]
  omega

/-! ## Evaluating the aggregation on concrete payloads -/

theorem getSLA_at_calc (metrics : List Metrics) (k : Int) :
    getSLA_at metrics k = ((outerLoop metrics).bind (fun m => m k)).map SLA.CalcSLA := by
  simp [getSLA_at, getSLA, outerLoop_eq_pass, calcAll]

/-- When every processed sample is at timestamp `T`, the returned map has the
one key `T`. -/
theorem getSLA_of_single_key (metrics : List Metrics) (T : Int) (r : SLA)
    (hall : ∀ e ∈ events metrics, e.2.2.StartTimeInMillis = T)
    (hr : getSLA_at metrics T = some r) :
    getSLA metrics = some (fun k => if k = T then some r else none) := by
  have hm := getSLA_eq metrics
  rw [hm]
  congr 1
  funext k
  by_cases hk : k = T
  · subst hk
    simpa [getSLA_at, hm] using hr
  · have hnil : eventsAt k (events metrics) = [] := by
      unfold eventsAt
      rw [List.filter_eq_nil_iff]
      intro e he
      have := hall e he
      simp only [decide_eq_true_eq]
      omega
    rw [getSLA_lookup metrics _ k hm, hnil]
    simp [hk]

theorem overflowPayload_at :
    getSLA_at overflowPayload 1
      = some ⟨1, "ONE_MIN", 100 + 100 * 2 ^ 63, 100, 1, 2 ^ 62, 2 ^ 62, 0⟩ := by
  have h : (outerLoop overflowPayload).bind (fun m => m 1)
      = some ⟨1, "ONE_MIN", 100, 100, 1, 2 ^ 62, 2 ^ 62, 0⟩ := by decide
  rw [getSLA_at_calc, h]
  simp [SLA.CalcSLA]
  norm_num [wrapInt]

theorem overflowPayload_result :
    getSLA overflowPayload = some (fun k =>
      if k = 1 then some ⟨1, "ONE_MIN", 100 + 100 * 2 ^ 63, 100, 1, 2 ^ 62, 2 ^ 62, 0⟩
      else none) :=
  getSLA_of_single_key overflowPayload 1 _ (by decide) overflowPayload_at

theorem callsErrorsPayload_at :
    getSLA_at callsErrorsPayload 1 = some ⟨1, "ONE_MIN", 95, 100, 100, 5, 0, 0⟩ := by
  have h : (outerLoop callsErrorsPayload).bind (fun m => m 1)
      = some ⟨1, "ONE_MIN", 100, 100, 100, 5, 0, 0⟩ := by decide
  rw [getSLA_at_calc, h]
  simp [SLA.CalcSLA]
  norm_num [wrapInt]

theorem callsErrorsPayload_result :
    getSLA callsErrorsPayload = some (fun k =>
      if k = 1 then some ⟨1, "ONE_MIN", 95, 100, 100, 5, 0, 0⟩ else none) :=
  getSLA_of_single_key callsErrorsPayload 1 _ (by decide) callsErrorsPayload_at

/-! ## The scores (C1, C2) -/

/-- C1, as the code computes it: in the map returned by the aggregation of
`getSLA`, every record with `totalCalls > 0` has
availability `100 - 100 * S / totalCalls`, where `S` is
`totalErrors + totalStalls` in 64-bit wrapping `int` arithmetic, and
performance `100 + 100 * totalVerySlow / totalCalls`; when the sum
`totalErrors + totalStalls` lies in the `int` range, `S` is that sum and the
availability is `100 - 100 * (totalErrors + totalStalls) / totalCalls`. -/
theorem C1_scores_of_positive_calls (metrics : List Metrics) (m : SLAMap) (k : Int) (r : SLA)
    (hm : getSLA metrics = some m) (hr : m k = some r) (hc : 0 < r.totalCalls) :
    r.availability
        = 100 - 100 * ((wrapInt (r.totalErrors + r.totalStalls) : Int) : ℚ) / (r.totalCalls : ℚ) ∧
    r.performance = 100 + 100 * (r.totalVerySlow : ℚ) / (r.totalCalls : ℚ) ∧
    (-(2 ^ 63) ≤ r.totalErrors + r.totalStalls → r.totalErrors + r.totalStalls < 2 ^ 63 →
      r.availability
        = 100 - 100 * ((r.totalErrors + r.totalStalls : Int) : ℚ) / (r.totalCalls : ℚ)) := by
  obtain ⟨e, rest, _, hrec⟩ := record_origin metrics m k r hm hr
  obtain ⟨_, _, c1, c2, c3, c4⟩ := CalcSLA_counters ((e :: rest).foldl recStep (freshSLA e))
  rw [← hrec] at c1 c2 c3 c4
  have hpos : 0 < ((e :: rest).foldl recStep (freshSLA e)).totalCalls := by rw [← c1]; exact hc
  have hav : r.availability
      = 100 - 100 * ((wrapInt (r.totalErrors + r.totalStalls) : Int) : ℚ) / (r.totalCalls : ℚ) := by
    rw [c1, c2, c3, hrec]
    simp only [SLA.CalcSLA, hpos, if_true]
  refine ⟨hav, ?_, ?_⟩
  · rw [c1, c4, hrec]
    simp only [SLA.CalcSLA, hpos, if_true]
    ring
  · intro h1 h2
    rw [hav, wrapInt_of_range _ h1 h2]

/-- C1, as stated, fails: with error and stall sums of `2^62` each and one
call, the record has `totalCalls = 1 > 0` and availability
`100 + 100 * 2^63`, not `100 - 100 * (2^62 + 2^62) / 1`. -/
theorem C1_counterexample :
    ∃ m r, getSLA overflowPayload = some m ∧ m 1 = some r ∧ 0 < r.totalCalls ∧
      r.totalErrors = 2 ^ 62 ∧ r.totalStalls = 2 ^ 62 ∧
      r.availability = 100 + 100 * 2 ^ 63 ∧
      r.availability
        ≠ 100 - 100 * ((r.totalErrors + r.totalStalls : Int) : ℚ) / (r.totalCalls : ℚ) := by
  refine ⟨_, ⟨1, "ONE_MIN", 100 + 100 * 2 ^ 63, 100, 1, 2 ^ 62, 2 ^ 62, 0⟩,
    overflowPayload_result, by simp, ?_⟩
  norm_num

/-- C1 at 100 calls and 5 errors: availability 95, performance 100. -/
theorem C1_witness :
    getSLA callsErrorsPayload = some (fun k =>
      if k = 1 then some ⟨1, "ONE_MIN", 95, 100, 100, 5, 0, 0⟩ else none) ∧
    (95 : ℚ) = 100 - 100 * ((wrapInt (5 + 0) : Int) : ℚ) / ((100 : Int) : ℚ) ∧
    (100 : ℚ) = 100 + 100 * ((0 : Int) : ℚ) / ((100 : Int) : ℚ) :=
  ⟨callsErrorsPayload_result,
    (C1_scores_of_positive_calls callsErrorsPayload _ 1 ⟨1, "ONE_MIN", 95, 100, 100, 5, 0, 0⟩
      callsErrorsPayload_result (by simp) (by decide)).1,
    (C1_scores_of_positive_calls callsErrorsPayload _ 1 ⟨1, "ONE_MIN", 95, 100, 100, 5, 0, 0⟩
      callsErrorsPayload_result (by simp) (by decide)).2.1⟩

theorem idlePayload_result :
    getSLA idlePayload = some (fun k =>
      if k = 1 then some ⟨1, "ONE_MIN", 100, 100, 0, 5, 2, 3⟩ else none) :=
  getSLA_of_single_key idlePayload 1 _ (by decide) (by decide)

theorem scores_of_zero_calls (metrics : List Metrics) (m : SLAMap) (k : Int) (r : SLA)
    (hm : getSLA metrics = some m) (hr : m k = some r) (hc : r.totalCalls = 0) :
    r.availability = 100 ∧ r.performance = 100 := by
  obtain ⟨e, rest, _, hrec⟩ := record_origin metrics m k r hm hr
  obtain ⟨_, _, c1, _⟩ := CalcSLA_counters ((e :: rest).foldl recStep (freshSLA e))
  rw [← hrec, hc] at c1
  have hnot : ¬ 0 < ((e :: rest).foldl recStep (freshSLA e)).totalCalls := by omega
  have hsame : r = (e :: rest).foldl recStep (freshSLA e) := by
    rw [hrec]
    simp only [SLA.CalcSLA, hnot, if_false]
  rw [hsame]
  exact built_scores e (e :: rest)

/-- C2: in the map returned by the aggregation of `getSLA`, every record with
`totalCalls = 0` has availability 100 and performance 100, whatever its other
counters. -/
theorem C2_scores_of_zero_calls (metrics : List Metrics) (m : SLAMap) (k : Int) (r : SLA)
    (hm : getSLA metrics = some m) (hr : m k = some r) (hc : r.totalCalls = 0) :
    r.availability = 100 ∧ r.performance = 100 :=
  scores_of_zero_calls metrics m k r hm hr hc

/-- C2 on a payload with no calls but 5 errors, 2 stalls and 3 very slow
calls: the record keeps 100 and 100. -/
theorem C2_witness :
    getSLA idlePayload = some (fun k =>
      if k = 1 then some ⟨1, "ONE_MIN", 100, 100, 0, 5, 2, 3⟩ else none) ∧
    (⟨1, "ONE_MIN", 100, 100, 0, 5, 2, 3⟩ : SLA).availability = 100 ∧
    (⟨1, "ONE_MIN", 100, 100, 0, 5, 2, 3⟩ : SLA).performance = 100 :=
  ⟨idlePayload_result,
    C2_scores_of_zero_calls idlePayload _ 1 ⟨1, "ONE_MIN", 100, 100, 0, 5, 2, 3⟩
      idlePayload_result (by simp) rfl⟩

/-! ## Totality (C10) -/

theorem stringsSplit_examples :
    stringsSplit "" = [""] ∧ stringsSplit "A" = ["A"] ∧ stringsSplit "A|B" = ["A", "B"] ∧
    stringsSplit "A|" = ["A", ""] ∧ stringsSplit "|" = ["", ""] := by
  decide

/-- C10: splitting any path on "|" gives at least one segment, so the index
`len(s) - 1` is in range: the loop body returns for every series and every
map, and the aggregation of `getSLA` returns a map for every list of series. -/
theorem C10_getSLA_total :
    (∀ path : String, 1 ≤ (stringsSplit path).length ∧
      ∃ seg, (stringsSplit path).get? ((stringsSplit path).length - 1) = some seg) ∧
    (∀ (mSeries : SLAMap) (md : Metrics), ∃ m, seriesStep mSeries md = some m) ∧
    (∀ metrics : List Metrics, ∃ m, getSLA metrics = some m) := by
  refine ⟨?_, ?_, ?_⟩
  · intro path
    have hpos : 0 < (stringsSplit path).length := List.length_pos.mpr (stringsSplit_ne_nil path)
    refine ⟨hpos, ?_⟩
    have hlt : (stringsSplit path).length - 1 < (stringsSplit path).length := by omega
    exact ⟨(stringsSplit path).get ⟨_, hlt⟩, List.get?_eq_get hlt⟩
  · intro mSeries md
    exact ⟨_, seriesStep_eq mSeries md⟩
  · intro metrics
    exact ⟨_, getSLA_eq metrics⟩

/-! ## The sentinel series (C6) -/

theorem events_of_all_empty (metrics : List Metrics)
    (h : ∀ md ∈ metrics, md.isEmpty = true) : events metrics = [] := by
  unfold events
  rw [List.flatten_eq_nil_iff]
  intro l hl
  obtain ⟨md, hmd, rfl⟩ := List.mem_map.mp hl
  simp [h md hmd]

/-- The name test of `isEmpty`, on series whose `MetricName` field holds the
sentinel: `isEmpty` holds of each of them and the loops build nothing. The
decoding never produces such a series (`unmarshalMetric`). -/
theorem getSLA_of_sentinel_names (metrics : List Metrics)
    (h : ∀ md ∈ metrics, md.MetricName = noData) :
    (∀ md ∈ metrics, md.isEmpty = true) ∧ getSLA metrics = some emptyMap := by
  have hall : ∀ md ∈ metrics, md.isEmpty = true := by
    intro md hmd
    simp [Metrics.isEmpty, h md hmd]
  refine ⟨hall, ?_⟩
  rw [getSLA_eq]
  congr 1
  funext k
  simp [calcAll, pass, events_of_all_empty metrics hall, emptyMap]

theorem jsonUnmarshal_name (body : List RawMetric) :
    ∀ md ∈ jsonUnmarshal body, md.MetricName = "" := by
  intro md hmd
  obtain ⟨raw, _, rfl⟩ := List.mem_map.mp hmd
  rfl

theorem isEmpty_of_decoded (md : Metrics) (h : md.MetricName = "") :
    md.isEmpty = decide (md.Values.length = 0) := by
  have hne : ¬ md.MetricName = noData := by rw [h]; decide
  by_cases hv : md.Values.length = 0 <;> simp [Metrics.isEmpty, hne, hv]

theorem sentinelBody_result :
    getSLA (jsonUnmarshal sentinelBody) = some (fun k =>
      if k = 1 then some ⟨1, "ONE_MIN", 100, 100, 9, 0, 0, 0⟩ else none) := by
  apply getSLA_of_single_key (jsonUnmarshal sentinelBody) 1 _ (by decide)
  have h : (outerLoop (jsonUnmarshal sentinelBody)).bind (fun m => m 1)
      = some ⟨1, "ONE_MIN", 100, 100, 9, 0, 0, 0⟩ := by decide
  rw [getSLA_at_calc, h]
  simp [SLA.CalcSLA]
  norm_num [wrapInt]

/-- C6 on the code: the name test of `isEmpty` never fires on decoded series.
For every body, every decoded series has `MetricName = ""`, so `isEmpty`
holds of it exactly when it has no values. On the body whose only series is
named "METRIC DATA NOT FOUND" and carries the sample `(1, 9)` under a
"Calls per Minute" path, `isEmpty` is false of the decoded series and the
aggregation of `getSLA` returns a map with a record at 1 (`totalCalls = 9`,
both scores 100), not the empty map. -/
theorem C6_sentinel_series_is_aggregated :
    (∀ body : List RawMetric, ∀ md ∈ jsonUnmarshal body,
      md.MetricName ≠ noData ∧ md.isEmpty = decide (md.Values.length = 0)) ∧
    (∀ raw ∈ sentinelBody, raw.metricName = noData) ∧
    (∀ md ∈ jsonUnmarshal sentinelBody, md.isEmpty = false) ∧
    getSLA (jsonUnmarshal sentinelBody) = some (fun k =>
      if k = 1 then some ⟨1, "ONE_MIN", 100, 100, 9, 0, 0, 0⟩ else none) ∧
    getSLA (jsonUnmarshal sentinelBody) ≠ some emptyMap := by
  refine ⟨?_, by decide, by decide, sentinelBody_result, ?_⟩
  · intro body md hmd
    have hname := jsonUnmarshal_name body md hmd
    refine ⟨?_, isEmpty_of_decoded md hname⟩
    rw [hname]
    decide
  · rw [sentinelBody_result]
    intro hc
    have := congrFun (Option.some.inj hc) 1
    simp [emptyMap] at this

/-! ## Which keys exist -/

theorem mem_events_iff (metrics : List Metrics) (e : Event) :
    e ∈ events metrics ↔ ∃ md ∈ metrics, md.isEmpty = false ∧
      ∃ v ∈ md.Values, (md.Frequency, kindOf md.MetricPath, v) = e := by
  unfold events
  simp only [List.mem_flatten, List.mem_map]
  constructor
  · rintro ⟨l, ⟨md, hmd, hl⟩, hel⟩
    by_cases hemp : md.isEmpty = true
    · rw [← hl] at hel
      simp [hemp] at hel
    · rw [← hl] at hel
      have hemp2 : md.isEmpty = false := by simpa using hemp
      simp only [hemp2, Bool.false_eq_true, if_false, List.mem_map] at hel
      exact ⟨md, hmd, hemp2, hel⟩
  · rintro ⟨md, hmd, hemp, hv⟩
    refine ⟨_, ⟨md, hmd, rfl⟩, ?_⟩
    simp only [hemp, Bool.false_eq_true, if_false, List.mem_map]
    exact hv

theorem eventsAt_ne_nil_iff (metrics : List Metrics) (k : Int) :
    eventsAt k (events metrics) ≠ [] ↔ ∃ md ∈ metrics, md.isEmpty = false ∧
      ∃ v ∈ md.Values, v.StartTimeInMillis = k := by
  constructor
  · intro h
    obtain ⟨e, he⟩ := List.exists_mem_of_ne_nil _ h
    unfold eventsAt at he
    rw [List.mem_filter] at he
    obtain ⟨md, hmd, hemp, v, hv, hve⟩ := (mem_events_iff metrics e).mp he.1
    refine ⟨md, hmd, hemp, v, hv, ?_⟩
    have := he.2
    rw [← hve] at this
    simpa using this
  · rintro ⟨md, hmd, hemp, v, hv, hk⟩
    apply List.ne_nil_of_mem (a := (md.Frequency, kindOf md.MetricPath, v))
    unfold eventsAt
    rw [List.mem_filter]
    exact ⟨(mem_events_iff metrics _).mpr ⟨md, hmd, hemp, v, hv, rfl⟩, by simpa using hk⟩

theorem lookup_isSome_iff (metrics : List Metrics) (m : SLAMap) (k : Int)
    (hm : getSLA metrics = some m) :
    (m k).isSome = true ↔ ∃ md ∈ metrics, md.isEmpty = false ∧
      ∃ v ∈ md.Values, v.StartTimeInMillis = k := by
  rw [← eventsAt_ne_nil_iff, getSLA_lookup metrics m k hm]
  cases hes : eventsAt k (events metrics) with
  | nil => simp
  | cons e rest =>
    rw [foldl_slotStep_cons]
    simp

theorem lastSum_eq_none (K : Nat) (es : List Event) (h : ∀ e ∈ es, e.2.1 ≠ K) :
    lastSum K es = none := by
  unfold lastSum
  have hnil : es.filter (fun e => decide (e.2.1 = K)) = [] := by
    rw [List.filter_eq_nil_iff]
    intro e he
    simpa using h e he
  rw [hnil]
  rfl

theorem switchOf_eq_zero (seg : String)
    (h : some seg ∉ [some calls, some errors, some stalls, some veryslow]) :
    switchOf seg = 0 := by
  simp only [List.mem_cons, Option.some.injEq, List.mem_singleton, List.not_mem_nil,
    or_false, not_or] at h
  obtain ⟨h1, h2, h3, h4⟩ := h
  unfold switchOf
  rw [if_neg (fun hc => h1 hc.symm), if_neg (fun hc => h2 hc.symm), if_neg (fun hc => h3 hc.symm),
    if_neg (fun hc => h4 hc.symm)]

theorem kindOf_eq_zero (path : String)
    (h : (stringsSplit path).getLast? ∉ [some calls, some errors, some stalls, some veryslow]) :
    kindOf path = 0 := by
  unfold kindOf
  cases hs : (stringsSplit path).getLast? with
  | none => exact absurd (List.getLast?_eq_none_iff.mp hs) (stringsSplit_ne_nil path)
  | some seg =>
    rw [hs] at h
    simpa using switchOf_eq_zero seg h

theorem kindOf_of_last (path seg : String) (h : (stringsSplit path).getLast? = some seg) :
    kindOf path = switchOf seg := by
  simp [kindOf, h]

theorem unrecognizedPayload_result :
    getSLA unrecognizedPayload = some (fun k =>
      if k = 1 then some ⟨1, "ONE_MIN", 100, 100, 0, 0, 0, 0⟩ else none) :=
  getSLA_of_single_key unrecognizedPayload 1 _ (by decide) (by decide)

/-! ## Unrecognized labels (C3) -/

/-- C3, as the code behaves: when no series has a recognized last path
segment, no counter is contributed (every record of the returned map has its
four counters at 0 and both scores at 100), but records are created: the map
has a record at `k` exactly when some series that is not `isEmpty` has a
sample at `k`. -/
theorem C3_unrecognized_labels (metrics : List Metrics)
    (h : ∀ md ∈ metrics, (stringsSplit md.MetricPath).getLast?
      ∉ [some calls, some errors, some stalls, some veryslow]) :
    ∃ m, getSLA metrics = some m ∧
      (∀ k, (m k).isSome = true ↔ ∃ md ∈ metrics, md.isEmpty = false ∧
        ∃ v ∈ md.Values, v.StartTimeInMillis = k) ∧
      (∀ k r, m k = some r → r.totalCalls = 0 ∧ r.totalErrors = 0 ∧ r.totalStalls = 0 ∧
        r.totalVerySlow = 0 ∧ r.availability = 100 ∧ r.performance = 100) := by
  obtain ⟨m, hm⟩ : ∃ m, getSLA metrics = some m := ⟨_, getSLA_eq metrics⟩
  refine ⟨m, hm, fun k => lookup_isSome_iff metrics m k hm, ?_⟩
  intro k r hr
  obtain ⟨e, rest, hes, hrec⟩ := record_origin metrics m k r hm hr
  have hkind : ∀ x ∈ e :: rest, x.2.1 = 0 := by
    intro x hx
    rw [← hes] at hx
    unfold eventsAt at hx
    obtain ⟨md, hmd, _, v, _, hxe⟩ := (mem_events_iff metrics x).mp (List.mem_filter.mp hx).1
    rw [← hxe]
    exact kindOf_eq_zero md.MetricPath (h md hmd)
  have hnone : ∀ K, K ≠ 0 → lastSum K (e :: rest) = none := by
    intro K hK
    apply lastSum_eq_none
    intro x hx
    rw [hkind x hx]
    exact fun hc => hK hc.symm
  have h1 := foldl_recStep_totalCalls (e :: rest) (freshSLA e)
  have h2 := foldl_recStep_totalErrors (e :: rest) (freshSLA e)
  have h3 := foldl_recStep_totalStalls (e :: rest) (freshSLA e)
  have h4 := foldl_recStep_totalVerySlow (e :: rest) (freshSLA e)
  rw [hnone 1 (by decide)] at h1
  rw [hnone 2 (by decide)] at h2
  rw [hnone 3 (by decide)] at h3
  rw [hnone 4 (by decide)] at h4
  obtain ⟨_, _, c1, c2, c3, c4⟩ := CalcSLA_counters ((e :: rest).foldl recStep (freshSLA e))
  rw [← hrec] at c1 c2 c3 c4
  have hc : r.totalCalls = 0 := by rw [c1, h1]; rfl
  refine ⟨hc, ?_, ?_, ?_, scores_of_zero_calls metrics m k r hm hr hc⟩
  · rw [c2, h2]; rfl
  · rw [c3, h3]; rfl
  · rw [c4, h4]; rfl

/-- C3, as stated, fails: one series with path "A|Average Response Time (ms)"
and the sample `(1, 7)` has no recognized label, yet the returned map has a
record at 1 (all counters 0, both scores 100) and is not the empty map. -/
theorem C3_counterexample :
    (∀ md ∈ unrecognizedPayload, (stringsSplit md.MetricPath).getLast?
      ∉ [some calls, some errors, some stalls, some veryslow]) ∧
    getSLA unrecognizedPayload = some (fun k =>
      if k = 1 then some ⟨1, "ONE_MIN", 100, 100, 0, 0, 0, 0⟩ else none) ∧
    getSLA unrecognizedPayload ≠ some emptyMap := by
  refine ⟨by decide, unrecognizedPayload_result, ?_⟩
  rw [unrecognizedPayload_result]
  intro hc
  have := congrFun (Option.some.inj hc) 1
  simp [emptyMap] at this

/-- C3 (as the code behaves) on the payload with the one unrecognized series. -/
theorem C3_witness :
    (∀ md ∈ unrecognizedPayload, (stringsSplit md.MetricPath).getLast?
      ∉ [some calls, some errors, some stalls, some veryslow]) ∧
    ∃ m, getSLA unrecognizedPayload = some m ∧
      (∀ k, (m k).isSome = true ↔ ∃ md ∈ unrecognizedPayload, md.isEmpty = false ∧
        ∃ v ∈ md.Values, v.StartTimeInMillis = k) ∧
      (∀ k r, m k = some r → r.totalCalls = 0 ∧ r.totalErrors = 0 ∧ r.totalStalls = 0 ∧
        r.totalVerySlow = 0 ∧ r.availability = 100 ∧ r.performance = 100) :=
  ⟨by decide, C3_unrecognized_labels unrecognizedPayload (by decide)⟩

/-! ## Two kinds at one timestamp (C4) -/

theorem isEmpty_single (n p f : String) (v : MetricValues) (hn : n ≠ noData) :
    (⟨n, p, f, [v]⟩ : Metrics).isEmpty = false := by
  simp [Metrics.isEmpty, hn]

theorem two_series_result (T c e : Int) (n1 p1 f1 n2 p2 f2 : String) (K1 K2 : Nat)
    (hn1 : n1 ≠ noData) (hn2 : n2 ≠ noData) (hk1 : kindOf p1 = K1) (hk2 : kindOf p2 = K2) :
    getSLA [⟨n1, p1, f1, [⟨T, c⟩]⟩, ⟨n2, p2, f2, [⟨T, e⟩]⟩]
      = some (fun k => if k = T then
          some (switchSet K2 (switchSet K1 ⟨T, f1, 100, 100, 0, 0, 0, 0⟩ c) e).CalcSLA
        else none) := by
  have hev : events [⟨n1, p1, f1, [⟨T, c⟩]⟩, ⟨n2, p2, f2, [⟨T, e⟩]⟩]
      = [(f1, K1, ⟨T, c⟩), (f2, K2, ⟨T, e⟩)] := by
    simp [events, isEmpty_single, hn1, hn2, hk1, hk2]
  apply getSLA_of_single_key
  · rw [hev]
    simp
  · rw [getSLA_at_eq, hev]
    simp [eventsAt, slotStep, recStep, freshSLA]

/-- C4: a "Calls per Minute" series with the one sample `(T, c)` and an
"Errors per Minute" series with the one sample `(T, e)`, in either order and
with any frequency labels, give a map with exactly the key `T`, whose record
has `totalCalls = c`, `totalErrors = e`, `totalStalls = 0`,
`totalVerySlow = 0`; for `c = 100` and `e = 5` its availability is 95 and
its performance 100. The series are as the decoder delivers them: their
name is not the sentinel of `isEmpty`. -/
theorem C4_calls_and_errors (T c e : Int) (n1 p1 f1 n2 p2 f2 : String)
    (hn1 : n1 ≠ noData) (hn2 : n2 ≠ noData)
    (hp1 : (stringsSplit p1).getLast? = some calls)
    (hp2 : (stringsSplit p2).getLast? = some errors) :
    ∀ metrics : List Metrics,
      metrics = [⟨n1, p1, f1, [⟨T, c⟩]⟩, ⟨n2, p2, f2, [⟨T, e⟩]⟩] ∨
      metrics = [⟨n2, p2, f2, [⟨T, e⟩]⟩, ⟨n1, p1, f1, [⟨T, c⟩]⟩] →
      ∃ m r, getSLA metrics = some m ∧ (∀ k, (m k).isSome = true ↔ k = T) ∧ m T = some r ∧
        r.startTime = T ∧
        r.totalCalls = c ∧ r.totalErrors = e ∧ r.totalStalls = 0 ∧ r.totalVerySlow = 0 ∧
        (c = 100 → e = 5 → r.availability = 95 ∧ r.performance = 100) := by
  have hk1 : kindOf p1 = 1 := by rw [kindOf_of_last p1 calls hp1]; decide
  have hk2 : kindOf p2 = 2 := by rw [kindOf_of_last p2 errors hp2]; decide
  have hscore : ∀ f : String, c = 100 → e = 5 →
      (SLA.CalcSLA ⟨T, f, 100, 100, c, e, 0, 0⟩).availability = 95 ∧
      (SLA.CalcSLA ⟨T, f, 100, 100, c, e, 0, 0⟩).performance = 100 := by
    intro f hc he
    subst hc he
    simp [SLA.CalcSLA]
    norm_num [wrapInt]
  intro metrics hmetrics
  rcases hmetrics with h | h
  · have hres := two_series_result T c e n1 p1 f1 n2 p2 f2 1 2 hn1 hn2 hk1 hk2
    simp only [switchSet, SLA.setCalls, SLA.setErrors] at hres
    rw [← h] at hres
    refine ⟨_, (SLA.CalcSLA ⟨T, f1, 100, 100, c, e, 0, 0⟩), hres, ?_, ?_, ?_⟩
    · intro k
      by_cases hk : k = T <;> simp [hk]
    · simp
    · obtain ⟨c0, _, c1, c2, c3, c4⟩ := CalcSLA_counters ⟨T, f1, 100, 100, c, e, 0, 0⟩
      exact ⟨c0, c1, c2, c3, c4, hscore f1⟩
  · have hres := two_series_result T e c n2 p2 f2 n1 p1 f1 2 1 hn2 hn1 hk2 hk1
    simp only [switchSet, SLA.setCalls, SLA.setErrors] at hres
    rw [← h] at hres
    refine ⟨_, (SLA.CalcSLA ⟨T, f2, 100, 100, c, e, 0, 0⟩), hres, ?_, ?_, ?_⟩
    · intro k
      by_cases hk : k = T <;> simp [hk]
    · simp
    · obtain ⟨c0, _, c1, c2, c3, c4⟩ := CalcSLA_counters ⟨T, f2, 100, 100, c, e, 0, 0⟩
      exact ⟨c0, c1, c2, c3, c4, hscore f2⟩

/-- C4 at `T = 1`, `c = 100`, `e = 5`. -/
theorem C4_witness :
    ("" : String) ≠ noData ∧
    (stringsSplit "A|Calls per Minute").getLast? = some calls ∧
    (stringsSplit "A|Errors per Minute").getLast? = some errors ∧
    ∃ m r, getSLA callsErrorsPayload = some m ∧ (∀ k, (m k).isSome = true ↔ k = 1) ∧
      m 1 = some r ∧ r.startTime = 1 ∧
      r.totalCalls = 100 ∧ r.totalErrors = 5 ∧ r.totalStalls = 0 ∧ r.totalVerySlow = 0 ∧
      ((100 : Int) = 100 → (5 : Int) = 5 → r.availability = 95 ∧ r.performance = 100) :=
  ⟨by decide, by decide, by decide,
    C4_calls_and_errors 1 100 5 "" "A|Calls per Minute" "ONE_MIN" "" "A|Errors per Minute"
      "ONE_MIN" (by decide) (by decide) (by decide) (by decide) callsErrorsPayload (Or.inl rfl)⟩

theorem duplicatePayload_result :
    getSLA duplicatePayload = some (fun k =>
      if k = 1 then some ⟨1, "ONE_MIN", 100, 100, 4, 0, 0, 0⟩ else none) := by
  apply getSLA_of_single_key duplicatePayload 1 _ (by decide)
  have h : (outerLoop duplicatePayload).bind (fun m => m 1)
      = some ⟨1, "ONE_MIN", 100, 100, 4, 0, 0, 0⟩ := by decide
  rw [getSLA_at_calc, h]
  simp [SLA.CalcSLA]
  norm_num [wrapInt]

/-! ## Last write wins (C5) -/

theorem series_sums (K : Nat) (T : Int) (f : String) (K0 : Nat) (vs : List MetricValues) :
    (((vs.map (fun v => ((f, K0, v) : Event))).filter
        (fun e => decide (e.2.2.StartTimeInMillis = T))).filter
        (fun e => decide (e.2.1 = K))).map (fun e => e.2.2.Sum)
      = if K0 = K then (vs.filter (fun v => decide (v.StartTimeInMillis = T))).map (fun v => v.Sum)
        else [] := by
  induction vs with
  | nil => simp
  | cons v rest ih =>
    by_cases hT : v.StartTimeInMillis = T <;> by_cases hK : K0 = K <;>
      simp_all [List.filter_cons]

theorem sums_eq_samplesOf (K : Nat) (T : Int) (metrics : List Metrics) :
    ((eventsAt T (events metrics)).filter (fun e => decide (e.2.1 = K))).map (fun e => e.2.2.Sum)
      = samplesOf K T metrics := by
  induction metrics with
  | nil => simp [events, eventsAt, samplesOf]
  | cons md rest ih =>
    have hev : events (md :: rest)
        = (if md.isEmpty = true then []
            else md.Values.map (fun v => ((md.Frequency, kindOf md.MetricPath, v) : Event)))
          ++ events rest := by
      simp [events]
    rw [hev]
    unfold eventsAt at ih ⊢
    rw [List.filter_append, List.filter_append, List.map_append, ih]
    by_cases hemp : md.isEmpty = true
    · simp [samplesOf, List.filter_cons, hemp]
    · have hemp2 : md.isEmpty = false := by simpa using hemp
      rw [if_neg hemp, series_sums]
      by_cases hK : kindOf md.MetricPath = K
      · simp [samplesOf, List.filter_cons, hemp2, hK]
      · simp [samplesOf, List.filter_cons, hemp2, hK]

theorem lastSum_eq_samplesOf (K : Nat) (T : Int) (metrics : List Metrics) :
    lastSum K (eventsAt T (events metrics)) = (samplesOf K T metrics).getLast? := by
  unfold lastSum
  rw [sums_eq_samplesOf]

/-- C5: last write wins per counter kind per timestamp. For a recognized
kind `K` (selector 1 to 4) and a timestamp `T`, if the series of kind `K`
that are not discarded have a sample at `T`, then the returned map has a
record at `T` whose counter `K` is the sum of the last such sample in input
order. -/
theorem C5_last_write_wins (metrics : List Metrics) (T : Int) (K : Nat) (v : Int)
    (hK1 : 1 ≤ K) (hK4 : K ≤ 4) (hv : (samplesOf K T metrics).getLast? = some v) :
    ∃ m r, getSLA metrics = some m ∧ m T = some r ∧ counter K r = v := by
  obtain ⟨m, hm⟩ : ∃ m, getSLA metrics = some m := ⟨_, getSLA_eq metrics⟩
  have hlast : lastSum K (eventsAt T (events metrics)) = some v := by
    rw [lastSum_eq_samplesOf, hv]
  cases hes : eventsAt T (events metrics) with
  | nil => rw [hes] at hlast; simp [lastSum] at hlast
  | cons e rest =>
    rw [hes] at hlast
    refine ⟨m, _, hm, record_lookup metrics m T e rest hm hes, ?_⟩
    obtain ⟨_, _, c1, c2, c3, c4⟩ := CalcSLA_counters ((e :: rest).foldl recStep (freshSLA e))
    interval_cases K
    · simp only [counter]
      rw [c1, foldl_recStep_totalCalls, hlast]
      rfl
    · simp only [counter]
      rw [c2, foldl_recStep_totalErrors, hlast]
      rfl
    · simp only [counter]
      rw [c3, foldl_recStep_totalStalls, hlast]
      rfl
    · simp only [counter]
      rw [c4, foldl_recStep_totalVerySlow, hlast]
      rfl

/-- C5 on a call series with the samples `(1, 3)` then `(1, 4)`: the record
at 1 has `totalCalls = 4`, the last sum, not the total 7. -/
theorem C5_witness :
    (samplesOf 1 1 duplicatePayload).getLast? = some 4 ∧
    getSLA duplicatePayload = some (fun k =>
      if k = 1 then some ⟨1, "ONE_MIN", 100, 100, 4, 0, 0, 0⟩ else none) ∧
    ∃ m r, getSLA duplicatePayload = some m ∧ m 1 = some r ∧ counter 1 r = 4 :=
  ⟨by decide, duplicatePayload_result,
    C5_last_write_wins duplicatePayload 1 1 4 (by decide) (by decide) (by decide)⟩

/-! ## One pass or many (C9) -/

theorem singlePass_aux (metrics : List Metrics) (m : SLAMap) :
    (metrics.filter (fun md => !md.isEmpty)).foldl
      (fun m md => md.Values.foldl (valueStep md.Frequency (kindOf md.MetricPath)) m) m
      = pass metrics m := by
  induction metrics generalizing m with
  | nil => simp [pass, events]
  | cons md rest ih =>
    have hev : events (md :: rest)
        = (if md.isEmpty = true then []
            else md.Values.map (fun v => ((md.Frequency, kindOf md.MetricPath, v) : Event)))
          ++ events rest := by
      simp [events]
    unfold pass at ih ⊢
    rw [hev, List.foldl_append]
    by_cases hemp : md.isEmpty = true
    · simp [List.filter_cons, hemp, ih]
    · have hemp2 : md.isEmpty = false := by simpa using hemp
      simp [List.filter_cons, hemp2, ih, List.foldl_map, evStep]

theorem singlePass_eq_pass (metrics : List Metrics) :
    singlePass metrics = pass metrics emptyMap :=
  singlePass_aux metrics emptyMap

/-- C9: the nested loops of `getSLA` (the whole loop over `i` once for every
series that has a sample) produce the map of a single pass that skips the
`isEmpty` series, before `CalcSLA` and after it; running the loop over `i`
again on that map returns the same map; and when no series has samples the
single pass gives the empty map, as the nested loops do. -/
theorem C9_nested_loops_equal_single_pass (metrics : List Metrics) :
    outerLoop metrics = some (singlePass metrics) ∧
    getSLA metrics = some (calcAll (singlePass metrics)) ∧
    innerLoop metrics (singlePass metrics) = some (singlePass metrics) ∧
    ((∀ md ∈ metrics, md.Values = []) →
      singlePass metrics = emptyMap ∧ outerLoop metrics = some emptyMap) := by
  have hsp := singlePass_eq_pass metrics
  have hout : outerLoop metrics = some (singlePass metrics) := by
    rw [hsp]; exact outerLoop_eq_pass metrics
  refine ⟨hout, ?_, ?_, ?_⟩
  · rw [hsp]; exact getSLA_eq metrics
  · rw [innerLoop_eq, hsp]
    exact congrArg some (pass_idem metrics emptyMap)
  · intro hall
    have hemp : ∀ md ∈ metrics, md.isEmpty = true := by
      intro md hmd
      simp [Metrics.isEmpty, hall md hmd]
    have hnil : singlePass metrics = emptyMap := by
      rw [hsp]
      simp [pass, events_of_all_empty metrics hemp]
    exact ⟨hnil, by rw [hout, hnil]⟩

/-! ## The fetch (C7) -/

/-- C7, as the code behaves: on a transport error `getJSONData` returns the
empty byte sequence; on a response whose status is not 200 it returns, for
every response body, the 14 bytes of the wrapper around an empty body,
`fixJSONFormat` of no bytes, which is not empty. -/
theorem C7_getJSONData_on_failure (statusCode : Int) (body : List UInt8)
    (h : statusCode ≠ 200) :
    getJSONData HTTPResult.transportError = [] ∧
    getJSONData (HTTPResult.response statusCode body) = fixJSONFormat [] ∧
    getJSONData (HTTPResult.response statusCode body) = asciiBytes "\x7b \"metrics\": \x7d" ∧
    (getJSONData (HTTPResult.response statusCode body)).length = 14 := by
  have h1 : getJSONData (HTTPResult.response statusCode body) = fixJSONFormat [] := by
    simp [getJSONData, h]
  have h2 : fixJSONFormat [] = asciiBytes "\x7b \"metrics\": \x7d" := by decide
  refine ⟨rfl, h1, h1.trans h2, ?_⟩
  rw [h1, h2]
  decide

/-- C7, as stated, fails: for a 404 response with an empty body `getJSONData`
returns 14 bytes, not the empty byte sequence. -/
theorem C7_counterexample :
    getJSONData (HTTPResult.response 404 []) = asciiBytes "\x7b \"metrics\": \x7d" ∧
    getJSONData (HTTPResult.response 404 []) ≠ [] := by
  decide

/-- C7 (as the code behaves) on a 500 response with the body `[]`. -/
theorem C7_witness :
    (500 : Int) ≠ 200 ∧
    getJSONData HTTPResult.transportError = [] ∧
    getJSONData (HTTPResult.response 500 (asciiBytes "[]")) = fixJSONFormat [] ∧
    getJSONData (HTTPResult.response 500 (asciiBytes "[]"))
      = asciiBytes "\x7b \"metrics\": \x7d" ∧
    (getJSONData (HTTPResult.response 500 (asciiBytes "[]"))).length = 14 :=
  ⟨by decide, C7_getJSONData_on_failure 500 (asciiBytes "[]") (by decide)⟩

/-! ## The two cadences (C8) -/

theorem pump_prefix (dataFunc : Nat → Trace → Trace) (cycle : List Action) (ds : Nat)
    (h : ∀ tr, dataFunc ds tr = tr ++ cycle) (n : Nat) (tr : Trace) :
    pump dataFunc ds n tr = tr ++ (List.replicate n cycle).flatten := by
  induction n generalizing tr with
  | zero => simp [pump]
  | succ n ih =>
    rw [pump, ih, h, List.replicate_succ, List.flatten_cons, List.append_assoc]

/-- C8: one call of the short-period cycle function performs a sleep, then a
fetch with lookback 5 and rollup false, then writeSLA, then writeTiming; one
call of the long-period cycle function performs a fetch with lookback 240 and
rollup false, then writeSLA, then writeTiming, then a sleep. In the repeated
loop, whatever the number of iterations begun, the short loop has exactly one
sleep before its first fetch and the long loop has nothing before its first
fetch. -/
theorem C8_cycle_order (ds0 ds : Nat) :
    influx1mPump ds0 ds []
      = [Action.sleep 60000, Action.fetch ds 5 false, Action.writeSLA ds,
          Action.writeTiming ds] ∧
    influx1hPump ds0 ds []
      = [Action.fetch ds 240 false, Action.writeSLA ds, Action.writeTiming ds,
          Action.sleep 3600000] ∧
    (∀ n, beforeFirstFetch (pump (influx1mPump ds0) ds (n + 1) []) = [Action.sleep 60000]) ∧
    (∀ n, beforeFirstFetch (pump (influx1hPump ds0) ds (n + 1) []) = []) ∧
    (∀ n, ∃ rest, pump (influx1mPump ds0) ds (n + 1) []
      = Action.sleep 60000 :: Action.fetch ds 5 false :: rest) ∧
    (∀ n, ∃ rest, pump (influx1hPump ds0) ds (n + 1) []
      = Action.fetch ds 240 false :: rest) := by
  have hm : ∀ n, pump (influx1mPump ds0) ds n []
      = [] ++ (List.replicate n [Action.sleep 60000, Action.fetch ds 5 false,
          Action.writeSLA ds, Action.writeTiming ds]).flatten :=
    fun n => pump_prefix _ _ ds (fun tr => by simp [influx1mPump]) n []
  have hh : ∀ n, pump (influx1hPump ds0) ds n []
      = [] ++ (List.replicate n [Action.fetch ds 240 false, Action.writeSLA ds,
          Action.writeTiming ds, Action.sleep 3600000]).flatten :=
    fun n => pump_prefix _ _ ds (fun tr => by simp [influx1hPump]) n []
  refine ⟨by simp [influx1mPump], by simp [influx1hPump], ?_, ?_, ?_, ?_⟩
  · intro n
    rw [hm]
    simp [beforeFirstFetch, List.replicate_succ, List.takeWhile_cons, Action.isFetch]
  · intro n
    rw [hh]
    simp [beforeFirstFetch, List.replicate_succ, List.takeWhile_cons, Action.isFetch]
  · intro n
    rw [hm]
    exact ⟨_, by simp [List.replicate_succ]; rfl⟩
  · intro n
    rw [hh]
    exact ⟨_, by simp [List.replicate_succ]; rfl⟩

end SlaVault
